import Mathlib

/-!
Shallow embedding of two Python scripts that convert IPv4 addresses between
decimal and binary dotted notation (`homework1.py`) and classify an IPv4
address into its legacy class, computing the default subnet mask, network
address and broadcast address (`homework2.py`).

Python strings are modelled as `List Char`; Python's fallible `int(...)`
conversion is modelled as an `Option`-returning parser, and functions in which
an uncaught `ValueError`/`IndexError` could propagate are modelled with
`Except` (an `.error` value corresponds to a raised exception, while every
normal Python `return` — including returned error-message strings — is `.ok`).
-/

set_option maxRecDepth 40000

abbrev Str := List Char

/-! ## String utilities shared by both scripts -/

/-- Python `s.split(".")`: splits at every dot, keeping empty groups; the
result is always non-empty. -/
def splitOnDot : Str → List Str
  | [] => [[]]
  | c :: cs =>
    if c = '.' then [] :: splitOnDot cs
    else
      match splitOnDot cs with
      | [] => [[c]]
      | g :: gs => (c :: g) :: gs

/-- Python `".".join(parts)`. -/
def joinDot : List Str → Str
  | [] => []
  | [o] => o
  | o :: rest => o ++ '.' :: joinDot rest

/-- The ASCII whitespace characters stripped by Python `int(...)`. -/
def isPyWs (c : Char) : Bool :=
  c = ' ' || c = '\t' || c = '\n' || c = '\x0b' || c = '\x0c' || c = '\r'

/-- Strip leading and trailing whitespace, as Python `int(...)` does. -/
def stripWs (s : Str) : Str :=
  ((s.dropWhile isPyWs).reverse.dropWhile isPyWs).reverse

def digitVal (c : Char) : Nat := c.toNat - 48

/-- Digits of a Python decimal integer literal after the first digit:
an underscore is allowed only between two digits. -/
def pyDigitsAux (acc : Nat) : Str → Option Nat
  | [] => some acc
  | c :: cs =>
    if c.isDigit then pyDigitsAux (10 * acc + digitVal c) cs
    else if c = '_' then
      match cs with
      | [] => none
      | d :: cs2 => if d.isDigit then pyDigitsAux (10 * acc + digitVal d) cs2 else none
    else none

/-- A non-empty run of decimal digits (with Python underscore grouping). -/
def pyIntOfDigits : Str → Option Nat
  | [] => none
  | c :: cs => if c.isDigit then pyDigitsAux (digitVal c) cs else none

/-- Python `int(s)` on a string: strip ASCII whitespace, allow one sign, then
decimal digits with underscore grouping; `none` models a raised `ValueError`. -/
def pyInt (s : Str) : Option Int :=
  match stripWs s with
  | [] => none
  | c :: cs =>
    if c = '+' then (pyIntOfDigits cs).map (fun n => (n : Int))
    else if c = '-' then (pyIntOfDigits cs).map (fun n => -(n : Int))
    else (pyIntOfDigits (c :: cs)).map (fun n => (n : Int))

/-- Value of a string of `0`/`1` characters read in base 2. -/
def val01 (s : Str) : Nat :=
  s.foldl (fun a c => 2 * a + (if c = '1' then 1 else 0)) 0

/-- Python `int(s, 2)`, modelled for plain bit-strings (every call site of the
scripts guards the argument to be a non-empty string of `0`/`1` characters);
`none` models a raised `ValueError`. -/
def pyIntBase2 (s : Str) : Option Nat :=
  if s ≠ [] ∧ s.all (fun c => c = '0' || c = '1') then some (val01 s) else none

/-- Python `str(n)` for a non-negative integer. -/
def natRepr (n : Nat) : Str := Nat.toDigits 10 n

/-- Python `str(v)` for an integer. -/
def intRepr (v : Int) : Str :=
  if v < 0 then '-' :: natRepr (-v).toNat else natRepr v.toNat

/-- Python `s.zfill(w)` for an unsigned string: pad with `0` on the left. -/
def zfill (w : Nat) (s : Str) : Str :=
  List.replicate (w - s.length) '0' ++ s

/-! ## homework1.py -/

/-- Error message for a wrong octet count. -/
def errOctetCount : Str :=
  "Ошибка: IP-адрес должен содержать 4 октета, разделенных точкой.".data

/-- Error message for a decimal octet out of the range 0–255. -/
def errRange (o : Str) : Str :=
  "Ошибка: Каждый октет должен быть числом от 0 до 255. Получено: ".data ++ o

/-- Error message for an octet that is not a number. -/
def errConvert (o : Str) : Str :=
  "Ошибка: Невозможно преобразовать \x27".data ++ o ++ "\x27 в число.".data

/-- Error message for a malformed binary octet. -/
def errBits (o : Str) : Str :=
  "Ошибка: Каждый двоичный октет должен содержать ровно 8 бит (0 или 1). Получено: ".data ++ o

/-- Loop body of `decimal_to_binary`: convert each octet, returning the first
error message if one occurs; the `none` branch is the `except ValueError`
handler of the source. -/
def d2bGo : List Str → List Str → Str
  | [], acc => joinDot acc.reverse
  | o :: rest, acc =>
    match pyInt o with
    | none => errConvert o
    | some v =>
      if v < 0 ∨ v > 255 then errRange o
      else d2bGo rest (zfill 8 (Nat.toDigits 2 v.toNat) :: acc)

/-- Model of `decimal_to_binary(ip_address)` of homework1.py.  Every failure path of
the source is a returned string, so the result is always `.ok`. -/
def decimal_to_binary (s : Str) : Except Str Str :=
  let octets := splitOnDot s
  if octets.length ≠ 4 then .ok errOctetCount
  else .ok (d2bGo octets [])

/-- Loop body of `binary_to_decimal`: an octet failing the bit-pattern guard
yields a returned error message; `int(octet, 2)` is not guarded by a
`try`, so its failure would be a raised `ValueError` (`.error`). -/
def b2dGo : List Str → List Str → Except Str Str
  | [], acc => .ok (joinDot acc.reverse)
  | o :: rest, acc =>
    if ¬ (o.all (fun c => c = '0' || c = '1') = true) ∨ o.length ≠ 8 then .ok (errBits o)
    else
      match pyIntBase2 o with
      | none => .error "ValueError".data
      | some n => b2dGo rest (natRepr n :: acc)

/-- Model of `binary_to_decimal(ip_address)` of homework1.py. -/
def binary_to_decimal (s : Str) : Except Str Str :=
  let octets := splitOnDot s
  if octets.length ≠ 4 then .ok errOctetCount
  else b2dGo octets []

/-- Decimal-format check of one octet in `validate_ip_format` (and the body of
the per-octet loop of homework2.py's `validate_ip`): the octet must parse as an
integer in 0–255. -/
def isDecOctet (o : Str) : Bool :=
  match pyInt o with
  | some v => if v < 0 ∨ v > 255 then false else true
  | none => false

/-- Binary-format check of one octet in `validate_ip_format`: exactly 8
characters, all `0` or `1`. -/
def isBinOctet (o : Str) : Bool :=
  (o.all (fun c => c = '0' || c = '1')) && o.length == 8

/-- Model of `validate_ip_format(ip_address)` of homework1.py: decides between
`"decimal"`, `"binary"` and `"invalid"`, checking the decimal reading first. -/
def validate_ip_format (s : Str) : Str :=
  let octets := splitOnDot s
  if octets.length ≠ 4 then "invalid".data
  else if octets.all isDecOctet then "decimal".data
  else if octets.all isBinOctet then "binary".data
  else "invalid".data

/-! ## homework2.py -/

/-- Model of `validate_ip(ip_address)` of homework2.py: four dot-separated octets, each
an integer in 0–255. -/
def validate_ip (s : Str) : Bool :=
  let octets := splitOnDot s
  if octets.length ≠ 4 then false
  else octets.all isDecOctet

/-- Model of `determine_ip_class(ip_address)` of homework2.py: class and default prefix
from the first octet.  The unguarded `int(...)` is modelled as a possible
`.error` (a raised `ValueError`). -/
def determine_ip_class (s : Str) : Except Str (Str × Nat) :=
  match splitOnDot s with
  | [] => .error "IndexError".data
  | o :: _ =>
    match pyInt o with
    | none => .error "ValueError".data
    | some v =>
      .ok (if 1 ≤ v ∧ v ≤ 126 then ("A".data, 8)
        else if 128 ≤ v ∧ v ≤ 191 then ("B".data, 16)
        else if 192 ≤ v ∧ v ≤ 223 then ("C".data, 24)
        else if 224 ≤ v ∧ v ≤ 239 then ("D".data, 0)
        else if 240 ≤ v ∧ v ≤ 255 then ("E".data, 0)
        else if v = 127 then ("Loopback".data, 8)
        else ("Неизвестный".data, 0))

/-- Model of `get_subnet_mask(prefix)` of homework2.py: build the bit-string
`"1" * prefix + "0" * (32 - prefix)`, slice it into the four 8-character
groups `[i:i+8]` for `i in range(0, 32, 8)`, and render each in decimal. -/
def get_subnet_mask (p : Nat) : Except Str Str :=
  let binary_mask := List.replicate p '1' ++ List.replicate (32 - p) '0'
  let octets := [binary_mask.take 8, (binary_mask.drop 8).take 8,
                 (binary_mask.drop 16).take 8, (binary_mask.drop 24).take 8]
  match octets.mapM pyIntBase2 with
  | none => .error "ValueError".data
  | some vals => .ok (joinDot (vals.map natRepr))

/-- Arithmetic core of `get_network_range(ip_address, prefix)` of
homework2.py, on the integer values of the first four octets.  Python `<< k`
on an unbounded integer is multiplication by `2 ^ k`, `>>`, `&` and `|` are the
arithmetic shift and two-complement bitwise operators (`Int.shiftRight`,
`Int.land`, `Int.lor`). -/
def gnrCore (o0 o1 o2 o3 : Int) (p : Nat) : Str × Str :=
  let ip_int : Int := o0 * 2 ^ 24 + o1 * 2 ^ 16 + o2 * 2 ^ 8 + o3
  let mask_int : Int := (2 ^ 32 - 1) - (2 ^ (32 - p) - 1)
  let network_int : Int := Int.land ip_int mask_int
  let broadcast_int : Int := Int.lor network_int (2 ^ (32 - p) - 1)
  let network_address := joinDot (([Int.land (Int.shiftRight network_int 24) 255,
    Int.land (Int.shiftRight network_int 16) 255,
    Int.land (Int.shiftRight network_int 8) 255,
    Int.land network_int 255]).map intRepr)
  let broadcast_address := joinDot (([Int.land (Int.shiftRight broadcast_int 24) 255,
    Int.land (Int.shiftRight broadcast_int 16) 255,
    Int.land (Int.shiftRight broadcast_int 8) 255,
    Int.land broadcast_int 255]).map intRepr)
  (network_address, broadcast_address)

/-- Model of `get_network_range(ip_address, prefix)` of homework2.py.  A non-integer
octet raises `ValueError`; fewer than four octets raises `IndexError` at the
list indexing (extra octets beyond the fourth are ignored, as in the source). -/
def get_network_range (s : Str) (p : Nat) : Except Str (Str × Str) :=
  match (splitOnDot s).mapM pyInt with
  | none => .error "ValueError".data
  | some octets =>
    match octets with
    | o0 :: o1 :: o2 :: o3 :: _ => .ok (gnrCore o0 o1 o2 o3 p)
    | _ => .error "IndexError".data

/-- A value stored in the result dictionary of `analyze_ip`: the source mixes
strings and integers. -/
inductive PyVal where
  | s (v : Str)
  | n (v : Nat)
deriving DecidableEq

/-- An insertion-ordered Python dictionary with string keys. -/
abbrev Dict := List (Str × PyVal)

/-- Model of `analyze_ip(ip_address)` of homework2.py. -/
def analyze_ip (s : Str) : Except Str Dict :=
  if ¬ (validate_ip s = true) then
    .ok [("error".data, .s "Неверный формат IP-адреса".data)]
  else
    match determine_ip_class s with
    | .error e => .error e
    | .ok (ip_class, default_prefix) =>
      if ip_class ∈ ["D".data, "E".data, "Неизвестный".data] then
        .ok [("ip_address".data, .s s), ("ip_class".data, .s ip_class),
             ("note".data, .s ("Для IP-адресов класса ".data ++ ip_class ++
               " не применяется стандартная маска подсети".data))]
      else
        match get_subnet_mask default_prefix with
        | .error e => .error e
        | .ok subnet_mask =>
          match get_network_range s default_prefix with
          | .error e => .error e
          | .ok (network_address, broadcast_address) =>
            .ok [("ip_address".data, .s s), ("ip_class".data, .s ip_class),
                 ("network_prefix".data, .n default_prefix),
                 ("subnet_mask".data, .s subnet_mask),
                 ("network_address".data, .s network_address),
                 ("broadcast_address".data, .s broadcast_address),
                 ("usable_hosts".data, .n (2 ^ (32 - default_prefix) - 2))]

/-! ## Observation helpers used by the theorem statements -/

/-- First-match lookup in an insertion-ordered dictionary. -/
def dictGet : Dict → Str → Option PyVal
  | [], _ => none
  | (k, v) :: rest, key => if k = key then some v else dictGet rest key

/-- Lookup a key in the dictionary of a normally returned `analyze_ip` result. -/
def exGet (r : Except Str Dict) (key : Str) : Option PyVal :=
  match r with
  | .ok d => dictGet d key
  | .error _ => none

/-- A returned string of the scripts is an error report when it starts with
the marker `"Ошибка:"` common to all error messages. -/
def isErrMsg (r : Str) : Bool := r.take 7 == "Ошибка:".data

/-- Decidable equality for `Except`, used to evaluate results on concrete
inputs. -/
instance {ε α : Type} [DecidableEq ε] [DecidableEq α] : DecidableEq (Except ε α) := fun a b =>
  match a, b with
  | .ok x, .ok y =>
    match decEq x y with
    | isTrue h => isTrue (h ▸ rfl)
    | isFalse h => isFalse fun hc => h (by cases hc; rfl)
  | .error x, .error y =>
    match decEq x y with
    | isTrue h => isTrue (h ▸ rfl)
    | isFalse h => isFalse fun hc => h (by cases hc; rfl)
  | .ok _, .error _ => isFalse fun hc => Except.noConfusion hc
  | .error _, .ok _ => isFalse fun hc => Except.noConfusion hc

/-! ## Specification-side definitions (for the refinement-style claims) -/

/-- Modelled from the spec: the subnet-mask value with `p` leading 1-bits in a
32-bit word. -/
def specMaskNat (p : Nat) : Nat :=
  val01 (List.replicate p '1' ++ List.replicate (32 - p) '0')

/-- Modelled from the spec: render a 32-bit value in dotted-decimal notation. -/
def toDotted (n : Nat) : Str :=
  joinDot (([n / 2 ^ 24 % 256, n / 2 ^ 16 % 256, n / 2 ^ 8 % 256, n % 256]).map natRepr)

/-- Modelled from the spec: the 32-bit numeric value of a dotted-decimal IPv4
address (meaningful on addresses accepted by `validate_ip`). -/
def ipNumOf (s : Str) : Nat :=
  match (splitOnDot s).map (fun o => ((pyInt o).getD 0).toNat) with
  | a :: b :: c :: d :: _ => a * 2 ^ 24 + b * 2 ^ 16 + c * 2 ^ 8 + d
  | _ => 0

/-! ## Infrastructure lemmas -/

lemma splitOnDot_ne_nil (s : Str) : splitOnDot s ≠ [] := by
  cases s with
  | nil => simp [splitOnDot]
  | cons c cs =>
    simp only [splitOnDot]
    split
    · simp
    · cases h : splitOnDot cs <;> simp

lemma joinDot_cons (a : Str) (l : List Str) (hl : l ≠ []) :
    joinDot (a :: l) = a ++ '.' :: joinDot l := by
  cases l with
  | nil => exact absurd rfl hl
  | cons b t => rfl

lemma joinDot_splitOnDot (s : Str) : joinDot (splitOnDot s) = s := by
  induction s with
  | nil => rfl
  | cons c cs ih =>
    by_cases hc : c = '.'
    · subst hc
      rw [show splitOnDot ('.' :: cs) = [] :: splitOnDot cs from by simp [splitOnDot]]
      rw [joinDot_cons _ _ (splitOnDot_ne_nil cs), ih]
      rfl
    · simp only [splitOnDot, if_neg hc]
      cases h : splitOnDot cs with
      | nil => exact absurd h (splitOnDot_ne_nil cs)
      | cons g gs =>
        rw [h] at ih
        cases gs with
        | nil => simpa [joinDot] using congrArg (c :: ·) ih
        | cons g2 gs2 =>
          rw [joinDot_cons _ _ (by simp)]
          rw [joinDot_cons _ _ (by simp)] at ih
          rw [← ih]
          simp

lemma splitOnDot_noDot (p : Str) (hp : ('.' : Char) ∉ p) : splitOnDot p = [p] := by
  induction p with
  | nil => rfl
  | cons c cs ih =>
    have hc : c ≠ '.' := fun h => hp (h ▸ List.mem_cons_self c cs)
    have hcs : ('.' : Char) ∉ cs := fun h => hp (List.mem_cons_of_mem c h)
    simp only [splitOnDot, if_neg hc, ih hcs]

lemma splitOnDot_append (p t : Str) (hp : ('.' : Char) ∉ p) :
    splitOnDot (p ++ '.' :: t) = p :: splitOnDot t := by
  induction p with
  | nil => simp [splitOnDot]
  | cons c cs ih =>
    have hc : c ≠ '.' := fun h => hp (h ▸ List.mem_cons_self c cs)
    have hcs : ('.' : Char) ∉ cs := fun h => hp (List.mem_cons_of_mem c h)
    simp only [List.cons_append, splitOnDot, if_neg hc]
    simp only [List.append_eq]
    rw [ih hcs]

lemma splitOnDot_joinDot (ps : List Str) (p : Str)
    (h : ∀ q ∈ p :: ps, ('.' : Char) ∉ q) :
    splitOnDot (joinDot (p :: ps)) = p :: ps := by
  induction ps generalizing p with
  | nil => exact splitOnDot_noDot p (h p (by simp))
  | cons q ps2 ih =>
    rw [joinDot_cons _ _ (by simp),
      splitOnDot_append _ _ (h p (by simp)),
      ih q (fun r hr => h r (by simpa using Or.inr hr))]

/-- Facts about the canonical decimal rendering of an octet value, checked by
enumeration over 0–255: `int(str(n)) = n`, and the rendering contains no dot. -/
lemma natRepr_octet : ∀ n < 256, pyInt (natRepr n) = some ((n : Int)) ∧
    ('.' : Char) ∉ natRepr n ∧ natRepr n ≠ [] := by decide

/-- Facts about the 8-bit zero-filled binary rendering of an octet value,
checked by enumeration over 0–255. -/
lemma binOctet_facts : ∀ n < 256, (zfill 8 (Nat.toDigits 2 n)).length = 8 ∧
    (zfill 8 (Nat.toDigits 2 n)).all (fun c => c = '0' || c = '1') = true ∧
    val01 (zfill 8 (Nat.toDigits 2 n)) = n ∧
    ('.' : Char) ∉ zfill 8 (Nat.toDigits 2 n) := by decide

/-- An 8-character string of `0`/`1` characters denotes a value below 256, and
the 8-bit zero-filled binary rendering of that value is the original string. -/
lemma bin_round8 (l : Str) (hl : l.length = 8) (hb : ∀ c ∈ l, c = '0' ∨ c = '1') :
    val01 l < 256 ∧ zfill 8 (Nat.toDigits 2 (val01 l)) = l := by
  obtain ⟨a, l1, rfl⟩ := List.exists_of_length_succ l hl
  simp only [List.length_cons, Nat.succ.injEq] at hl
  obtain ⟨b, l2, rfl⟩ := List.exists_of_length_succ l1 hl
  simp only [List.length_cons, Nat.succ.injEq] at hl
  obtain ⟨c, l3, rfl⟩ := List.exists_of_length_succ l2 hl
  simp only [List.length_cons, Nat.succ.injEq] at hl
  obtain ⟨d, l4, rfl⟩ := List.exists_of_length_succ l3 hl
  simp only [List.length_cons, Nat.succ.injEq] at hl
  obtain ⟨e, l5, rfl⟩ := List.exists_of_length_succ l4 hl
  simp only [List.length_cons, Nat.succ.injEq] at hl
  obtain ⟨f, l6, rfl⟩ := List.exists_of_length_succ l5 hl
  simp only [List.length_cons, Nat.succ.injEq] at hl
  obtain ⟨g, l7, rfl⟩ := List.exists_of_length_succ l6 hl
  simp only [List.length_cons, Nat.succ.injEq] at hl
  obtain ⟨h, l8, rfl⟩ := List.exists_of_length_succ l7 hl
  simp only [List.length_cons, Nat.succ.injEq] at hl
  have hnil : l8 = [] := List.eq_nil_of_length_eq_zero hl
  subst hnil
  have ha := hb a (by simp)
  have hb2 := hb b (by simp)
  have hc := hb c (by simp)
  have hd := hb d (by simp)
  have he := hb e (by simp)
  have hf := hb f (by simp)
  have hg := hb g (by simp)
  have hh := hb h (by simp)
  clear hb hl
  rcases ha with rfl | rfl <;> rcases hb2 with rfl | rfl <;>
    rcases hc with rfl | rfl <;> rcases hd with rfl | rfl <;>
    rcases he with rfl | rfl <;> rcases hf with rfl | rfl <;>
    rcases hg with rfl | rfl <;> rcases hh with rfl | rfl <;> decide

lemma stripWs_01 (s : Str) (h : ∀ c ∈ s, c = '0' ∨ c = '1') : stripWs s = s := by
  unfold stripWs
  have h1 : s.dropWhile isPyWs = s := by
    cases s with
    | nil => rfl
    | cons c cs => rcases h c (by simp) with rfl | rfl <;> rfl
  rw [h1]
  have h2 : s.reverse.dropWhile isPyWs = s.reverse := by
    cases hr : s.reverse with
    | nil => rfl
    | cons c cs =>
      have hm : c ∈ s := by
        rw [← List.mem_reverse, hr]
        simp
      rcases h c hm with rfl | rfl <;> rfl
  rw [h2, List.reverse_reverse]

lemma pyDigitsAux_01 (l : Str) : ∀ acc, (∀ c ∈ l, c = '0' ∨ c = '1') →
    ∃ n, pyDigitsAux acc l = some n := by
  induction l with
  | nil => exact fun acc _ => ⟨acc, rfl⟩
  | cons c cs ih =>
    intro acc h
    have hcs : ∀ x ∈ cs, x = '0' ∨ x = '1' := fun x hx => h x (List.mem_cons_of_mem c hx)
    rcases h c (by simp) with rfl | rfl
    · rw [pyDigitsAux.eq_def]
      simpa using ih (10 * acc + digitVal '0') hcs
    · rw [pyDigitsAux.eq_def]
      simpa using ih (10 * acc + digitVal '1') hcs

lemma pyInt_01 (s : Str) (hne : s ≠ []) (h : ∀ c ∈ s, c = '0' ∨ c = '1') :
    ∃ n : Nat, pyInt s = some ((n : Int)) := by
  unfold pyInt
  rw [stripWs_01 s h]
  cases s with
  | nil => exact absurd rfl hne
  | cons c cs =>
    have hcs : ∀ x ∈ cs, x = '0' ∨ x = '1' := fun x hx => h x (List.mem_cons_of_mem c hx)
    obtain ⟨n, hn⟩ := pyDigitsAux_01 cs (digitVal c) hcs
    rcases h c (by simp) with rfl | rfl <;>
      simp [pyIntOfDigits, hn, Int.ofNat_eq_coe]

lemma isDecOctet_true_iff (o : Str) :
    isDecOctet o = true ↔ ∃ v, pyInt o = some v ∧ 0 ≤ v ∧ v ≤ 255 := by
  unfold isDecOctet
  cases h : pyInt o with
  | none => simp
  | some v =>
    rw [show (match some v with
        | some w => if w < 0 ∨ w > 255 then false else true
        | none => false) = (if v < 0 ∨ v > 255 then false else true) from rfl]
    constructor
    · intro hv
      refine ⟨v, rfl, ?_, ?_⟩ <;> (
        by_contra hneg
        rw [if_pos (by omega)] at hv
        exact Bool.false_ne_true hv)
    · rintro ⟨w, hw, h0, h255⟩
      injection hw with hvw
      subst hvw
      rw [if_neg (by omega)]

lemma list_len4 {α : Type} (l : List α) (h : l.length = 4) :
    ∃ a b c d, l = [a, b, c, d] := by
  obtain ⟨a, l1, rfl⟩ := List.exists_of_length_succ l h
  simp only [List.length_cons, Nat.succ.injEq] at h
  obtain ⟨b, l2, rfl⟩ := List.exists_of_length_succ l1 h
  simp only [List.length_cons, Nat.succ.injEq] at h
  obtain ⟨c, l3, rfl⟩ := List.exists_of_length_succ l2 h
  simp only [List.length_cons, Nat.succ.injEq] at h
  obtain ⟨d, l4, rfl⟩ := List.exists_of_length_succ l3 h
  simp only [List.length_cons, Nat.succ.injEq] at h
  exact ⟨a, b, c, d, by rw [List.eq_nil_of_length_eq_zero h]⟩

/-- Elimination form of `validate_ip`: a validated address splits into exactly
four octets, each parsing to an integer in 0–255. -/
lemma validate_ip_elim (s : Str) (h : validate_ip s = true) :
    ∃ o0 o1 o2 o3 v0 v1 v2 v3,
      splitOnDot s = [o0, o1, o2, o3] ∧
      pyInt o0 = some v0 ∧ 0 ≤ v0 ∧ v0 ≤ 255 ∧
      pyInt o1 = some v1 ∧ 0 ≤ v1 ∧ v1 ≤ 255 ∧
      pyInt o2 = some v2 ∧ 0 ≤ v2 ∧ v2 ≤ 255 ∧
      pyInt o3 = some v3 ∧ 0 ≤ v3 ∧ v3 ≤ 255 := by
  simp only [validate_ip] at h
  by_cases hlen : (splitOnDot s).length ≠ 4
  · rw [if_pos hlen] at h
    exact absurd h (by simp)
  · rw [if_neg hlen] at h
    obtain ⟨o0, o1, o2, o3, hsplit⟩ := list_len4 _ (not_ne_iff.mp hlen)
    rw [hsplit] at h
    simp only [List.all_cons, List.all_nil, Bool.and_true, Bool.and_eq_true] at h
    obtain ⟨h0, h1, h2, h3⟩ := h
    obtain ⟨v0, hv0, hl0, hr0⟩ := (isDecOctet_true_iff o0).mp h0
    obtain ⟨v1, hv1, hl1, hr1⟩ := (isDecOctet_true_iff o1).mp h1
    obtain ⟨v2, hv2, hl2, hr2⟩ := (isDecOctet_true_iff o2).mp h2
    obtain ⟨v3, hv3, hl3, hr3⟩ := (isDecOctet_true_iff o3).mp h3
    exact ⟨o0, o1, o2, o3, v0, v1, v2, v3, hsplit, hv0, hl0, hr0,
      hv1, hl1, hr1, hv2, hl2, hr2, hv3, hl3, hr3⟩

lemma isErrMsg_errOctetCount : isErrMsg errOctetCount = true := by decide

lemma isErrMsg_errRange (o : Str) : isErrMsg (errRange o) = true := by
  unfold isErrMsg errRange
  rw [List.take_append_of_le_length (by decide)]
  decide

lemma isErrMsg_errConvert (o : Str) : isErrMsg (errConvert o) = true := by
  unfold isErrMsg errConvert
  rw [List.append_assoc, List.take_append_of_le_length (by decide)]
  decide

lemma isErrMsg_errBits (o : Str) : isErrMsg (errBits o) = true := by
  unfold isErrMsg errBits
  rw [List.take_append_of_le_length (by decide)]
  decide

lemma d2bGo_cons (o : Str) (rest acc : List Str) :
    d2bGo (o :: rest) acc =
      match pyInt o with
      | none => errConvert o
      | some v =>
        if v < 0 ∨ v > 255 then errRange o
        else d2bGo rest (zfill 8 (Nat.toDigits 2 v.toNat) :: acc) := rfl

lemma b2dGo_cons (o : Str) (rest : List Str) (acc : List Str) :
    b2dGo (o :: rest) acc =
      if ¬ (o.all (fun c => c = '0' || c = '1') = true) ∨ o.length ≠ 8 then .ok (errBits o)
      else
        match pyIntBase2 o with
        | none => .error "ValueError".data
        | some n => b2dGo rest (natRepr n :: acc) := rfl

lemma pyIntBase2_of_guard (o : Str) (hall : o.all (fun c => c = '0' || c = '1') = true)
    (hlen : o.length = 8) : pyIntBase2 o = some (val01 o) := by
  unfold pyIntBase2
  rw [if_pos ⟨by intro h; rw [h] at hlen; simp at hlen, hall⟩]

/-- If some octet of the list fails the decimal-octet check, the conversion
loop of `decimal_to_binary` produces an error message. -/
lemma d2bGo_err (l : List Str) : ∀ acc, (∃ o ∈ l, isDecOctet o = false) →
    isErrMsg (d2bGo l acc) = true := by
  induction l with
  | nil =>
    rintro acc ⟨o, ho, _⟩
    exact absurd ho (List.not_mem_nil o)
  | cons o rest ih =>
    rintro acc ⟨o2, ho2, hbad⟩
    rw [d2bGo_cons]
    cases hp : pyInt o with
    | none => exact isErrMsg_errConvert o
    | some v =>
      show isErrMsg (if v < 0 ∨ v > 255 then errRange o
        else d2bGo rest (zfill 8 (Nat.toDigits 2 v.toNat) :: acc)) = true
      by_cases hr : v < 0 ∨ v > 255
      · rw [if_pos hr]
        exact isErrMsg_errRange o
      · rw [if_neg hr]
        rcases List.mem_cons.mp ho2 with rfl | hmem
        · have : isDecOctet o2 = true :=
            (isDecOctet_true_iff o2).mpr ⟨v, hp, by omega, by omega⟩
          rw [this] at hbad
          exact absurd hbad (by simp)
        · exact ih _ ⟨o2, hmem, hbad⟩

/-- If some octet fails the decimal-octet check, `validate_ip` is `false`. -/
lemma validate_ip_false_of_bad (s : Str) (o : Str) (ho : o ∈ splitOnDot s)
    (hbad : isDecOctet o = false) : validate_ip s = false := by
  simp only [validate_ip]
  by_cases hlen : (splitOnDot s).length ≠ 4
  · rw [if_pos hlen]
  · rw [if_neg hlen]
    cases hall : (splitOnDot s).all isDecOctet with
    | false => rfl
    | true =>
      have := List.all_eq_true.mp hall o ho
      rw [hbad] at this
      exact absurd this (by simp)

/-- If some octet of the list fails the 8-bit binary guard, the conversion
loop of `binary_to_decimal` returns an error message (never an exception). -/
lemma b2dGo_err (l : List Str) : ∀ acc, (∃ o ∈ l, isBinOctet o = false) →
    ∃ m, b2dGo l acc = .ok m ∧ isErrMsg m = true := by
  induction l with
  | nil =>
    rintro acc ⟨o, ho, _⟩
    exact absurd ho (List.not_mem_nil o)
  | cons o rest ih =>
    rintro acc ⟨o2, ho2, hbad⟩
    rw [b2dGo_cons]
    by_cases hg : ¬ (o.all (fun c => c = '0' || c = '1') = true) ∨ o.length ≠ 8
    · rw [if_pos hg]
      exact ⟨errBits o, rfl, isErrMsg_errBits o⟩
    · rw [if_neg hg]
      push_neg at hg
      obtain ⟨hall, hlen⟩ := hg
      rw [pyIntBase2_of_guard o (by simpa using hall) hlen]
      rcases List.mem_cons.mp ho2 with rfl | hmem
      · have : isBinOctet o2 = true := by
          unfold isBinOctet
          rw [hlen]
          simp [hall]
        rw [this] at hbad
        exact absurd hbad (by simp)
      · exact ih _ ⟨o2, hmem, hbad⟩

/-- The conversion loop of `binary_to_decimal` never raises: the bit-pattern
guard protects the base-2 conversion. -/
lemma b2dGo_isOk (l : List Str) : ∀ acc, ∃ m, b2dGo l acc = .ok m := by
  induction l with
  | nil => exact fun acc => ⟨joinDot acc.reverse, rfl⟩
  | cons o rest ih =>
    intro acc
    rw [b2dGo_cons]
    by_cases hg : ¬ (o.all (fun c => c = '0' || c = '1') = true) ∨ o.length ≠ 8
    · rw [if_pos hg]
      exact ⟨errBits o, rfl⟩
    · rw [if_neg hg]
      push_neg at hg
      obtain ⟨hall, hlen⟩ := hg
      rw [pyIntBase2_of_guard o (by simpa using hall) hlen]
      exact ih _

/-- If every octet parses to a value in range, the conversion loop of
`decimal_to_binary` produces the joined 8-bit renderings. -/
lemma d2bGo_ok (l : List Str) : ∀ (vals : List Nat),
    List.Forall₂ (fun o n => pyInt o = some ((n : Int)) ∧ n ≤ 255) l vals →
    ∀ acc, d2bGo l acc =
      joinDot (acc.reverse ++ vals.map (fun n => zfill 8 (Nat.toDigits 2 n))) := by
  induction l with
  | nil =>
    intro vals h acc
    cases vals with
    | nil => simp [d2bGo]
    | cons n t => cases h
  | cons o rest ih =>
    intro vals h acc
    cases vals with
    | nil => cases h
    | cons n tail =>
      obtain ⟨⟨hp, hn⟩, htail⟩ := List.forall₂_cons.mp h
      rw [d2bGo_cons, hp]
      show (if (n : Int) < 0 ∨ (n : Int) > 255 then errRange o
        else d2bGo rest (zfill 8 (Nat.toDigits 2 ((n : Int)).toNat) :: acc)) = _
      rw [if_neg (by omega)]
      rw [show ((n : Int)).toNat = n from rfl]
      rw [ih tail htail (zfill 8 (Nat.toDigits 2 n) :: acc)]
      simp

/-- If every octet passes the 8-bit binary guard, the conversion loop of
`binary_to_decimal` produces the joined decimal renderings of the values. -/
lemma b2dGo_ok (l : List Str) (h : ∀ o ∈ l, isBinOctet o = true) :
    ∀ acc, b2dGo l acc = .ok (joinDot (acc.reverse ++ l.map (fun o => natRepr (val01 o)))) := by
  induction l with
  | nil =>
    intro acc
    simp [b2dGo]
  | cons o rest ih =>
    intro acc
    have ho := h o (by simp)
    have hrest : ∀ x ∈ rest, isBinOctet x = true := fun x hx => h x (List.mem_cons_of_mem o hx)
    simp only [isBinOctet, Bool.and_eq_true, beq_iff_eq] at ho
    obtain ⟨hall, hlen⟩ := ho
    rw [b2dGo_cons, if_neg (by push_neg; exact ⟨by simp [hall], hlen⟩)]
    rw [pyIntBase2_of_guard o hall hlen]
    show b2dGo rest (natRepr (val01 o) :: acc) = _
    rw [ih hrest (natRepr (val01 o) :: acc)]
    simp

/-- Reduction of `determine_ip_class` once the first octet parses. -/
lemma determine_ip_class_eq (s : Str) (o0 : Str) (rest : List Str) (v : Int)
    (hsplit : splitOnDot s = o0 :: rest) (hp : pyInt o0 = some v) :
    determine_ip_class s = .ok (if 1 ≤ v ∧ v ≤ 126 then ("A".data, 8)
      else if 128 ≤ v ∧ v ≤ 191 then ("B".data, 16)
      else if 192 ≤ v ∧ v ≤ 223 then ("C".data, 24)
      else if 224 ≤ v ∧ v ≤ 239 then ("D".data, 0)
      else if 240 ≤ v ∧ v ≤ 255 then ("E".data, 0)
      else if v = 127 then ("Loopback".data, 8)
      else ("Неизвестный".data, 0)) := by
  unfold determine_ip_class
  rw [hsplit]
  show (match pyInt o0 with
    | none => Except.error "ValueError".data
    | some v =>
      Except.ok (if 1 ≤ v ∧ v ≤ 126 then ("A".data, 8)
        else if 128 ≤ v ∧ v ≤ 191 then ("B".data, 16)
        else if 192 ≤ v ∧ v ≤ 223 then ("C".data, 24)
        else if 224 ≤ v ∧ v ≤ 239 then ("D".data, 0)
        else if 240 ≤ v ∧ v ≤ 255 then ("E".data, 0)
        else if v = 127 then ("Loopback".data, 8)
        else ("Неизвестный".data, 0))) = _
  rw [hp]

lemma intRepr_coe (n : Nat) : intRepr ((n : Int)) = natRepr n := by
  unfold intRepr
  rw [if_neg (by omega)]
  rw [show ((n : Int)).toNat = n from rfl]

lemma land255_mod (n : Nat) : Nat.land n 255 = n % 256 := by
  have h := Nat.and_pow_two_sub_one_eq_mod n 8
  norm_num at h
  exact h

lemma shift_land_octet (n k : Nat) :
    intRepr (Int.land (Int.shiftRight ((n : Int)) k) 255) = natRepr (n / 2 ^ k % 256) := by
  rw [show Int.land (Int.shiftRight ((n : Int)) k) 255 = ((Nat.land (n >>> k) 255 : Nat) : Int) from rfl]
  rw [intRepr_coe]
  rw [Nat.shiftRight_eq_div_pow, land255_mod]

lemma land_octet (n : Nat) :
    intRepr (Int.land ((n : Int)) 255) = natRepr (n % 256) := by
  rw [show Int.land ((n : Int)) 255 = ((Nat.land n 255 : Nat) : Int) from rfl]
  rw [intRepr_coe, land255_mod]

/-- Rendering the four byte fields of a non-negative 32-bit integer, as
`get_network_range` does, agrees with the dotted-decimal rendering. -/
lemma joinRender (n : Nat) :
    joinDot (([Int.land (Int.shiftRight ((n : Int)) 24) 255,
      Int.land (Int.shiftRight ((n : Int)) 16) 255,
      Int.land (Int.shiftRight ((n : Int)) 8) 255,
      Int.land ((n : Int)) 255]).map intRepr) = toDotted n := by
  unfold toDotted
  simp only [List.map]
  rw [shift_land_octet, shift_land_octet, shift_land_octet, land_octet]

lemma mapM_four (o0 o1 o2 o3 : Str) (v0 v1 v2 v3 : Int) (h0 : pyInt o0 = some v0)
    (h1 : pyInt o1 = some v1) (h2 : pyInt o2 = some v2) (h3 : pyInt o3 = some v3) :
    ([o0, o1, o2, o3].mapM pyInt) = some [v0, v1, v2, v3] := by
  simp [List.mapM, List.mapM.loop, h0, h1, h2, h3]

lemma get_network_range_eq (s : Str) (p : Nat) (a b c d : Int) (rest : List Int)
    (hm : (splitOnDot s).mapM pyInt = some (a :: b :: c :: d :: rest)) :
    get_network_range s p = .ok (gnrCore a b c d p) := by
  unfold get_network_range
  rw [hm]

/-- The arithmetic core of `get_network_range` computes, for the classful
prefixes, the dotted rendering of `ip AND mask` and of
`(ip AND mask) OR NOT mask`, with the mask of `p` leading one bits. -/
lemma gnrCore_spec (n0 n1 n2 n3 p : Nat) (hp : p = 8 ∨ p = 16 ∨ p = 24) :
    gnrCore ((n0 : Int)) ((n1 : Int)) ((n2 : Int)) ((n3 : Int)) p =
      (toDotted (Nat.land (n0 * 2 ^ 24 + n1 * 2 ^ 16 + n2 * 2 ^ 8 + n3) (specMaskNat p)),
       toDotted (Nat.lor (Nat.land (n0 * 2 ^ 24 + n1 * 2 ^ 16 + n2 * 2 ^ 8 + n3) (specMaskNat p))
         (2 ^ 32 - 1 - specMaskNat p))) := by
  have hip : ((n0 : Int)) * 2 ^ 24 + ((n1 : Int)) * 2 ^ 16 + ((n2 : Int)) * 2 ^ 8 + ((n3 : Int))
      = ((n0 * 2 ^ 24 + n1 * 2 ^ 16 + n2 * 2 ^ 8 + n3 : Nat) : Int) := by
    push_cast
    ring
  simp only [gnrCore]
  rw [hip]
  generalize n0 * 2 ^ 24 + n1 * 2 ^ 16 + n2 * 2 ^ 8 + n3 = N
  rcases hp with rfl | rfl | rfl
  · rw [show ((2 : Int) ^ 32 - 1) - (2 ^ (32 - 8) - 1) = ((4278190080 : Nat) : Int) from by norm_num]
    rw [show Int.land ((N : Int)) ((4278190080 : Nat) : Int)
      = ((Nat.land N 4278190080 : Nat) : Int) from rfl]
    rw [show (2 : Int) ^ (32 - 8) - 1 = ((16777215 : Nat) : Int) from by norm_num]
    rw [show Int.lor (((Nat.land N 4278190080 : Nat) : Int)) (((16777215 : Nat) : Int))
      = ((Nat.lor (Nat.land N 4278190080) 16777215 : Nat) : Int) from rfl]
    rw [joinRender, joinRender]
    rw [show specMaskNat 8 = 4278190080 from by decide]
    norm_num
  · rw [show ((2 : Int) ^ 32 - 1) - (2 ^ (32 - 16) - 1) = ((4294901760 : Nat) : Int) from by norm_num]
    rw [show Int.land ((N : Int)) ((4294901760 : Nat) : Int)
      = ((Nat.land N 4294901760 : Nat) : Int) from rfl]
    rw [show (2 : Int) ^ (32 - 16) - 1 = ((65535 : Nat) : Int) from by norm_num]
    rw [show Int.lor (((Nat.land N 4294901760 : Nat) : Int)) (((65535 : Nat) : Int))
      = ((Nat.lor (Nat.land N 4294901760) 65535 : Nat) : Int) from rfl]
    rw [joinRender, joinRender]
    rw [show specMaskNat 16 = 4294901760 from by decide]
    norm_num
  · rw [show ((2 : Int) ^ 32 - 1) - (2 ^ (32 - 24) - 1) = ((4294967040 : Nat) : Int) from by norm_num]
    rw [show Int.land ((N : Int)) ((4294967040 : Nat) : Int)
      = ((Nat.land N 4294967040 : Nat) : Int) from rfl]
    rw [show (2 : Int) ^ (32 - 24) - 1 = ((255 : Nat) : Int) from by norm_num]
    rw [show Int.lor (((Nat.land N 4294967040 : Nat) : Int)) (((255 : Nat) : Int))
      = ((Nat.lor (Nat.land N 4294967040) 255 : Nat) : Int) from rfl]
    rw [joinRender, joinRender]
    rw [show specMaskNat 24 = 4294967040 from by decide]
    norm_num

lemma get_subnet_mask_8 : get_subnet_mask 8 = .ok (toDotted (specMaskNat 8)) := by decide

lemma get_subnet_mask_16 : get_subnet_mask 16 = .ok (toDotted (specMaskNat 16)) := by decide

lemma get_subnet_mask_24 : get_subnet_mask 24 = .ok (toDotted (specMaskNat 24)) := by decide

lemma analyze_ip_invalid (s : Str) (hval : validate_ip s = false) :
    analyze_ip s = .ok [("error".data, .s "Неверный формат IP-адреса".data)] := by
  unfold analyze_ip
  rw [if_pos (by simp [hval])]

lemma analyze_ip_note (s cls : Str) (p : Nat) (hval : validate_ip s = true)
    (hdet : determine_ip_class s = .ok (cls, p))
    (hin : cls ∈ ["D".data, "E".data, "Неизвестный".data]) :
    analyze_ip s = .ok [("ip_address".data, .s s), ("ip_class".data, .s cls),
      ("note".data, .s ("Для IP-адресов класса ".data ++ cls ++
        " не применяется стандартная маска подсети".data))] := by
  unfold analyze_ip
  rw [if_neg (by simp [hval])]
  simp only [hdet]
  rw [if_pos hin]

/-- Full reduction of `analyze_ip` on a validated address whose class takes
the classful branch (prefix 8, 16 or 24). -/
lemma analyze_ip_classful (s cls : Str) (p : Nat)
    (hval : validate_ip s = true)
    (hdet : determine_ip_class s = .ok (cls, p))
    (hnot : ¬ cls ∈ ["D".data, "E".data, "Неизвестный".data])
    (hp : p = 8 ∨ p = 16 ∨ p = 24) :
    analyze_ip s = .ok [("ip_address".data, .s s), ("ip_class".data, .s cls),
      ("network_prefix".data, .n p),
      ("subnet_mask".data, .s (toDotted (specMaskNat p))),
      ("network_address".data, .s (toDotted (Nat.land (ipNumOf s) (specMaskNat p)))),
      ("broadcast_address".data, .s (toDotted (Nat.lor (Nat.land (ipNumOf s) (specMaskNat p))
        (2 ^ 32 - 1 - specMaskNat p)))),
      ("usable_hosts".data, .n (2 ^ (32 - p) - 2))] := by
  obtain ⟨o0, o1, o2, o3, v0, v1, v2, v3, hsplit, h0, hl0, hr0, h1, hl1, hr1,
    h2, hl2, hr2, h3, hl3, hr3⟩ := validate_ip_elim s hval
  obtain ⟨n0, rfl⟩ : ∃ n : Nat, v0 = (n : Int) := ⟨v0.toNat, by omega⟩
  obtain ⟨n1, rfl⟩ : ∃ n : Nat, v1 = (n : Int) := ⟨v1.toNat, by omega⟩
  obtain ⟨n2, rfl⟩ : ∃ n : Nat, v2 = (n : Int) := ⟨v2.toNat, by omega⟩
  obtain ⟨n3, rfl⟩ : ∃ n : Nat, v3 = (n : Int) := ⟨v3.toNat, by omega⟩
  have hipnum : ipNumOf s = n0 * 2 ^ 24 + n1 * 2 ^ 16 + n2 * 2 ^ 8 + n3 := by
    unfold ipNumOf
    rw [hsplit]
    simp only [List.map]
    rw [h0, h1, h2, h3]
    rfl
  have hmapm : (splitOnDot s).mapM pyInt = some [(n0 : Int), (n1 : Int), (n2 : Int), (n3 : Int)] := by
    rw [hsplit]
    exact mapM_four o0 o1 o2 o3 _ _ _ _ h0 h1 h2 h3
  have hmask : get_subnet_mask p = .ok (toDotted (specMaskNat p)) := by
    rcases hp with rfl | rfl | rfl
    · exact get_subnet_mask_8
    · exact get_subnet_mask_16
    · exact get_subnet_mask_24
  unfold analyze_ip
  rw [if_neg (by simp [hval])]
  simp only [hdet]
  rw [if_neg hnot]
  simp only [hmask, get_network_range_eq s p _ _ _ _ [] hmapm,
    gnrCore_spec n0 n1 n2 n3 p hp]
  rw [hipnum]

lemma isDecOctet_false_of_big (o : Str) (v : Int) (hv : pyInt o = some v)
    (h255 : 255 < v) : isDecOctet o = false := by
  cases h : isDecOctet o with
  | false => rfl
  | true =>
    obtain ⟨w, hw, _, hwle⟩ := (isDecOctet_true_iff o).mp h
    rw [hv] at hw
    injection hw with he
    omega

/-! ## Claim theorems -/

/-- C8: `decimal_to_binary("192.168.1.1")` returns
`"11000000.10101000.00000001.00000001"`. -/
theorem hw1_c8_concrete_conversion :
    decimal_to_binary "192.168.1.1".data =
      .ok "11000000.10101000.00000001.00000001".data := by decide

/-- C6: `analyze_ip("10.0.0.1")` reports class A with network prefix 8 and
subnet mask `"255.0.0.0"`. -/
theorem hw2_c6_class_a_example :
    exGet (analyze_ip "10.0.0.1".data) "ip_class".data = some (.s "A".data) ∧
    exGet (analyze_ip "10.0.0.1".data) "network_prefix".data = some (.n 8) ∧
    exGet (analyze_ip "10.0.0.1".data) "subnet_mask".data = some (.s "255.0.0.0".data) := by
  decide

/-- C7: `analyze_ip("224.0.0.1")` reports class D and returns only a note that
no standard subnet mask applies: the result holds exactly the keys
`ip_address`, `ip_class` and `note`, and no subnet mask, network address,
broadcast address or host count. -/
theorem hw2_c7_class_d_example :
    analyze_ip "224.0.0.1".data = .ok [("ip_address".data, .s "224.0.0.1".data),
      ("ip_class".data, .s "D".data),
      ("note".data,
        .s "Для IP-адресов класса D не применяется стандартная маска подсети".data)] ∧
    exGet (analyze_ip "224.0.0.1".data) "subnet_mask".data = none ∧
    exGet (analyze_ip "224.0.0.1".data) "network_address".data = none ∧
    exGet (analyze_ip "224.0.0.1".data) "broadcast_address".data = none ∧
    exGet (analyze_ip "224.0.0.1".data) "usable_hosts".data = none := by
  decide

/-- C5: an input containing an octet whose parsed value exceeds 255 is
rejected by `decimal_to_binary` (error message, no conversion) and by
`validate_ip`; an input containing a `0`/`1` octet whose length is not 8 is
rejected by `binary_to_decimal` with an error message. -/
theorem hw1_hw2_c5_rejection :
    (∀ s o v, o ∈ splitOnDot s → pyInt o = some v → 255 < v →
       ∃ m, decimal_to_binary s = .ok m ∧ isErrMsg m = true) ∧
    (∀ s o v, o ∈ splitOnDot s → pyInt o = some v → 255 < v →
       validate_ip s = false) ∧
    (∀ s o, o ∈ splitOnDot s → (∀ c ∈ o, c = '0' ∨ c = '1') → o.length ≠ 8 →
       ∃ m, binary_to_decimal s = .ok m ∧ isErrMsg m = true) := by
  refine ⟨?_, ?_, ?_⟩
  · intro s o v ho hv h255
    have hbad := isDecOctet_false_of_big o v hv h255
    unfold decimal_to_binary
    by_cases hlen : (splitOnDot s).length ≠ 4
    · rw [if_pos hlen]
      exact ⟨_, rfl, isErrMsg_errOctetCount⟩
    · rw [if_neg hlen]
      exact ⟨_, rfl, d2bGo_err _ _ ⟨o, ho, hbad⟩⟩
  · intro s o v ho hv h255
    exact validate_ip_false_of_bad s o ho (isDecOctet_false_of_big o v hv h255)
  · intro s o ho hb hlen8
    have hbad : isBinOctet o = false := by
      simp [isBinOctet, hlen8]
    unfold binary_to_decimal
    by_cases hlen : (splitOnDot s).length ≠ 4
    · rw [if_pos hlen]
      exact ⟨_, rfl, isErrMsg_errOctetCount⟩
    · rw [if_neg hlen]
      exact b2dGo_err _ _ ⟨o, ho, hbad⟩

/-- Witness for C5 at the concrete inputs `"256.1.1.1"` and a 7-bit binary
octet. -/
theorem hw1_hw2_c5_rejection_witness :
    (∃ m, decimal_to_binary "256.1.1.1".data = .ok m ∧ isErrMsg m = true) ∧
    validate_ip "256.1.1.1".data = false ∧
    (∃ m, binary_to_decimal "0101010.00000001.00000001.00000001".data = .ok m ∧
      isErrMsg m = true) :=
  ⟨hw1_hw2_c5_rejection.1 "256.1.1.1".data "256".data 256 (by decide) (by decide)
      (by decide),
   hw1_hw2_c5_rejection.2.1 "256.1.1.1".data "256".data 256 (by decide) (by decide)
      (by decide),
   hw1_hw2_c5_rejection.2.2 "0101010.00000001.00000001.00000001".data "0101010".data
      (by decide) (by decide) (by decide)⟩

/-- C3: on every input string, `decimal_to_binary`, `binary_to_decimal` and
`analyze_ip` return normally (`.ok`): no modelled exception (`.error`) ever
escapes; malformed input yields returned error values. -/
theorem hw1_hw2_c3_no_exceptions (s : Str) :
    (∃ r, decimal_to_binary s = .ok r) ∧ (∃ r, binary_to_decimal s = .ok r) ∧
    (∃ d, analyze_ip s = .ok d) := by
  refine ⟨?_, ?_, ?_⟩
  · unfold decimal_to_binary
    by_cases h : (splitOnDot s).length ≠ 4
    · rw [if_pos h]
      exact ⟨_, rfl⟩
    · rw [if_neg h]
      exact ⟨_, rfl⟩
  · unfold binary_to_decimal
    by_cases h : (splitOnDot s).length ≠ 4
    · rw [if_pos h]
      exact ⟨_, rfl⟩
    · rw [if_neg h]
      exact b2dGo_isOk _ _
  · by_cases hval : validate_ip s = true
    · obtain ⟨o0, o1, o2, o3, v0, v1, v2, v3, hsplit, h0, hl0, hr0, h1, hl1, hr1,
        h2, hl2, hr2, h3, hl3, hr3⟩ := validate_ip_elim s hval
      have hdet := determine_ip_class_eq s o0 [o1, o2, o3] v0 hsplit h0
      split_ifs at hdet with c1 c2 c3 c4 c5 c6
      · exact ⟨_, analyze_ip_classful s "A".data 8 hval hdet (by decide) (Or.inl rfl)⟩
      · exact ⟨_, analyze_ip_classful s "B".data 16 hval hdet (by decide)
          (Or.inr (Or.inl rfl))⟩
      · exact ⟨_, analyze_ip_classful s "C".data 24 hval hdet (by decide)
          (Or.inr (Or.inr rfl))⟩
      · exact ⟨_, analyze_ip_note s "D".data 0 hval hdet (by decide)⟩
      · exact ⟨_, analyze_ip_note s "E".data 0 hval hdet (by decide)⟩
      · exact ⟨_, analyze_ip_classful s "Loopback".data 8 hval hdet (by decide)
          (Or.inl rfl)⟩
      · exact ⟨_, analyze_ip_note s "Неизвестный".data 0 hval hdet (by decide)⟩
    · have hfalse : validate_ip s = false := by
        revert hval
        cases validate_ip s <;> simp
      exact ⟨_, analyze_ip_invalid s hfalse⟩

/-- C9: if each of the four octets of the input is an 8-character string of
`0`/`1` characters that, read as a decimal number, lies in 0–255, then
`validate_ip_format` classifies the input as `"decimal"`, not `"binary"`. -/
theorem hw1_c9_binary_looking_is_decimal (s : Str) (o0 o1 o2 o3 : Str)
    (hsplit : splitOnDot s = [o0, o1, o2, o3])
    (hoct : ∀ o ∈ [o0, o1, o2, o3], o.length = 8 ∧ (∀ c ∈ o, c = '0' ∨ c = '1') ∧
      ∃ v, pyInt o = some v ∧ v ≤ 255) :
    validate_ip_format s = "decimal".data := by
  simp only [validate_ip_format]
  rw [hsplit]
  rw [if_neg (by simp)]
  have hdec : [o0, o1, o2, o3].all isDecOctet = true := by
    rw [List.all_eq_true]
    intro o ho
    obtain ⟨hlen, hbits, v, hv, h255⟩ := hoct o ho
    obtain ⟨n, hn⟩ := pyInt_01 o (by intro he; rw [he] at hlen; simp at hlen) hbits
    rw [hv] at hn
    injection hn with hveq
    refine (isDecOctet_true_iff o).mpr ⟨v, hv, ?_, h255⟩
    rw [hveq]
    omega
  rw [if_pos hdec]

/-- Witness for C9: the all-binary-looking address
`"00000001.00000001.00000001.00000001"` is classified `"decimal"`. -/
theorem hw1_c9_binary_looking_is_decimal_witness :
    validate_ip_format "00000001.00000001.00000001.00000001".data = "decimal".data :=
  hw1_c9_binary_looking_is_decimal "00000001.00000001.00000001.00000001".data
    "00000001".data "00000001".data "00000001".data "00000001".data
    (by decide) (by decide)

/-- C10: converting a valid binary dotted-octet string (four groups of exactly
8 `0`/`1` characters) to decimal and back to binary yields the original
string. -/
theorem hw1_c10_binary_roundtrip (s : Str)
    (hlen : (splitOnDot s).length = 4)
    (hoct : ∀ o ∈ splitOnDot s, o.length = 8 ∧ ∀ c ∈ o, c = '0' ∨ c = '1') :
    ∃ dec, binary_to_decimal s = .ok dec ∧ decimal_to_binary dec = .ok s := by
  obtain ⟨o0, o1, o2, o3, hsplit⟩ := list_len4 _ hlen
  have hbin : ∀ o ∈ splitOnDot s, isBinOctet o = true := by
    intro o ho
    obtain ⟨hl, hb⟩ := hoct o ho
    unfold isBinOctet
    rw [hl]
    simp only [Bool.and_eq_true, beq_self_eq_true, and_true]
    rw [List.all_eq_true]
    intro c hc
    rcases hb c hc with rfl | rfl <;> simp
  have hb2d : binary_to_decimal s =
      .ok (joinDot ([o0, o1, o2, o3].map (fun o => natRepr (val01 o)))) := by
    unfold binary_to_decimal
    rw [if_neg (by omega)]
    rw [b2dGo_ok _ hbin []]
    rw [hsplit]
    simp
  have m0 := hoct o0 (by rw [hsplit]; simp)
  have m1 := hoct o1 (by rw [hsplit]; simp)
  have m2 := hoct o2 (by rw [hsplit]; simp)
  have m3 := hoct o3 (by rw [hsplit]; simp)
  obtain ⟨hlt0, hrt0⟩ := bin_round8 o0 m0.1 m0.2
  obtain ⟨hlt1, hrt1⟩ := bin_round8 o1 m1.1 m1.2
  obtain ⟨hlt2, hrt2⟩ := bin_round8 o2 m2.1 m2.2
  obtain ⟨hlt3, hrt3⟩ := bin_round8 o3 m3.1 m3.2
  refine ⟨_, hb2d, ?_⟩
  have hdecsplit : splitOnDot (joinDot ([o0, o1, o2, o3].map (fun o => natRepr (val01 o)))) =
      [natRepr (val01 o0), natRepr (val01 o1), natRepr (val01 o2), natRepr (val01 o3)] := by
    simp only [List.map]
    apply splitOnDot_joinDot
    intro q hq
    simp only [List.mem_cons, List.not_mem_nil, or_false] at hq
    rcases hq with rfl | rfl | rfl | rfl
    · exact (natRepr_octet _ hlt0).2.1
    · exact (natRepr_octet _ hlt1).2.1
    · exact (natRepr_octet _ hlt2).2.1
    · exact (natRepr_octet _ hlt3).2.1
  unfold decimal_to_binary
  rw [hdecsplit]
  rw [if_neg (by simp)]
  rw [d2bGo_ok _ [val01 o0, val01 o1, val01 o2, val01 o3] ?_ []]
  · rw [show joinDot (([] : List Str).reverse ++
      [val01 o0, val01 o1, val01 o2, val01 o3].map (fun n => zfill 8 (Nat.toDigits 2 n))) =
      joinDot [zfill 8 (Nat.toDigits 2 (val01 o0)), zfill 8 (Nat.toDigits 2 (val01 o1)),
        zfill 8 (Nat.toDigits 2 (val01 o2)), zfill 8 (Nat.toDigits 2 (val01 o3))] from by simp]
    rw [hrt0, hrt1, hrt2, hrt3]
    have hjoin := joinDot_splitOnDot s
    rw [hsplit] at hjoin
    rw [hjoin]
  · exact List.Forall₂.cons ⟨(natRepr_octet _ hlt0).1, by omega⟩
      (List.Forall₂.cons ⟨(natRepr_octet _ hlt1).1, by omega⟩
        (List.Forall₂.cons ⟨(natRepr_octet _ hlt2).1, by omega⟩
          (List.Forall₂.cons ⟨(natRepr_octet _ hlt3).1, by omega⟩ List.Forall₂.nil)))

/-- Witness for C10 at a concrete valid binary address. -/
theorem hw1_c10_binary_roundtrip_witness :
    ∃ dec, binary_to_decimal "00000001.11111111.00000000.10101010".data = .ok dec ∧
      decimal_to_binary dec = .ok "00000001.11111111.00000000.10101010".data :=
  hw1_c10_binary_roundtrip "00000001.11111111.00000000.10101010".data
    (by decide) (by decide)

/-- C1 (amended): the decimal-to-binary-to-decimal round trip returns the
original string for every address whose four octets are written canonically
(the plain digits of a number 0–255, no sign, whitespace, underscores or
leading zeros). -/
theorem hw1_c1_decimal_roundtrip_canonical (n0 n1 n2 n3 : Nat)
    (h0 : n0 ≤ 255) (h1 : n1 ≤ 255) (h2 : n2 ≤ 255) (h3 : n3 ≤ 255) :
    ∃ bin, decimal_to_binary (joinDot [natRepr n0, natRepr n1, natRepr n2, natRepr n3]) =
        .ok bin ∧
      binary_to_decimal bin = .ok (joinDot [natRepr n0, natRepr n1, natRepr n2, natRepr n3]) := by
  have hlt0 : n0 < 256 := by omega
  have hlt1 : n1 < 256 := by omega
  have hlt2 : n2 < 256 := by omega
  have hlt3 : n3 < 256 := by omega
  have hsplit : splitOnDot (joinDot [natRepr n0, natRepr n1, natRepr n2, natRepr n3]) =
      [natRepr n0, natRepr n1, natRepr n2, natRepr n3] := by
    apply splitOnDot_joinDot
    intro q hq
    simp only [List.mem_cons, List.not_mem_nil, or_false] at hq
    rcases hq with rfl | rfl | rfl | rfl
    · exact (natRepr_octet _ hlt0).2.1
    · exact (natRepr_octet _ hlt1).2.1
    · exact (natRepr_octet _ hlt2).2.1
    · exact (natRepr_octet _ hlt3).2.1
  have hd2b : decimal_to_binary (joinDot [natRepr n0, natRepr n1, natRepr n2, natRepr n3]) =
      .ok (joinDot [zfill 8 (Nat.toDigits 2 n0), zfill 8 (Nat.toDigits 2 n1),
        zfill 8 (Nat.toDigits 2 n2), zfill 8 (Nat.toDigits 2 n3)]) := by
    unfold decimal_to_binary
    rw [hsplit]
    rw [if_neg (by simp)]
    rw [d2bGo_ok _ [n0, n1, n2, n3] ?_ []]
    · simp
    · exact List.Forall₂.cons ⟨(natRepr_octet _ hlt0).1, by omega⟩
        (List.Forall₂.cons ⟨(natRepr_octet _ hlt1).1, by omega⟩
          (List.Forall₂.cons ⟨(natRepr_octet _ hlt2).1, by omega⟩
            (List.Forall₂.cons ⟨(natRepr_octet _ hlt3).1, by omega⟩ List.Forall₂.nil)))
  refine ⟨_, hd2b, ?_⟩
  have hbinsplit : splitOnDot (joinDot [zfill 8 (Nat.toDigits 2 n0),
      zfill 8 (Nat.toDigits 2 n1), zfill 8 (Nat.toDigits 2 n2),
      zfill 8 (Nat.toDigits 2 n3)]) = [zfill 8 (Nat.toDigits 2 n0),
      zfill 8 (Nat.toDigits 2 n1), zfill 8 (Nat.toDigits 2 n2),
      zfill 8 (Nat.toDigits 2 n3)] := by
    apply splitOnDot_joinDot
    intro q hq
    simp only [List.mem_cons, List.not_mem_nil, or_false] at hq
    rcases hq with rfl | rfl | rfl | rfl
    · exact (binOctet_facts _ hlt0).2.2.2
    · exact (binOctet_facts _ hlt1).2.2.2
    · exact (binOctet_facts _ hlt2).2.2.2
    · exact (binOctet_facts _ hlt3).2.2.2
  have hbin : ∀ o ∈ [zfill 8 (Nat.toDigits 2 n0), zfill 8 (Nat.toDigits 2 n1),
      zfill 8 (Nat.toDigits 2 n2), zfill 8 (Nat.toDigits 2 n3)], isBinOctet o = true := by
    intro o ho
    simp only [List.mem_cons, List.not_mem_nil, or_false] at ho
    have key : ∀ n : Nat, n < 256 → isBinOctet (zfill 8 (Nat.toDigits 2 n)) = true := by
      intro n hn
      unfold isBinOctet
      rw [(binOctet_facts n hn).1, (binOctet_facts n hn).2.1]
      rfl
    rcases ho with rfl | rfl | rfl | rfl
    · exact key _ hlt0
    · exact key _ hlt1
    · exact key _ hlt2
    · exact key _ hlt3
  unfold binary_to_decimal
  rw [hbinsplit]
  rw [if_neg (by simp)]
  rw [b2dGo_ok _ hbin []]
  rw [show ([] : List Str).reverse ++ [zfill 8 (Nat.toDigits 2 n0),
      zfill 8 (Nat.toDigits 2 n1), zfill 8 (Nat.toDigits 2 n2),
      zfill 8 (Nat.toDigits 2 n3)].map (fun o => natRepr (val01 o)) =
    [natRepr (val01 (zfill 8 (Nat.toDigits 2 n0))), natRepr (val01 (zfill 8 (Nat.toDigits 2 n1))),
     natRepr (val01 (zfill 8 (Nat.toDigits 2 n2))), natRepr (val01 (zfill 8 (Nat.toDigits 2 n3)))]
    from by simp]
  rw [(binOctet_facts _ hlt0).2.2.1, (binOctet_facts _ hlt1).2.2.1,
    (binOctet_facts _ hlt2).2.2.1, (binOctet_facts _ hlt3).2.2.1]

/-- Witness for the amended C1 at `10.0.0.1`. -/
theorem hw1_c1_decimal_roundtrip_canonical_witness :
    ∃ bin, decimal_to_binary (joinDot [natRepr 10, natRepr 0, natRepr 0, natRepr 1]) =
        .ok bin ∧
      binary_to_decimal bin = .ok (joinDot [natRepr 10, natRepr 0, natRepr 0, natRepr 1]) :=
  hw1_c1_decimal_roundtrip_canonical 10 0 0 1 (by decide) (by decide) (by decide) (by decide)

/-- Counterexample to C1 as stated: `"010.0.0.1"` is accepted by the code's
decimal validation (and converted by `decimal_to_binary`), yet the round trip
returns `"10.0.0.1"`, not the original string. -/
theorem hw1_c1_roundtrip_counterexample :
    validate_ip_format "010.0.0.1".data = "decimal".data ∧
    validate_ip "010.0.0.1".data = true ∧
    decimal_to_binary "010.0.0.1".data =
      .ok "00001010.00000000.00000000.00000001".data ∧
    binary_to_decimal "00001010.00000000.00000000.00000001".data = .ok "10.0.0.1".data ∧
    "10.0.0.1".data ≠ "010.0.0.1".data := by decide

/-- C2 (amended): for every address accepted by `validate_ip` whose first
octet has value at least 1, `determine_ip_class` returns one of the classes
A, B, C, D, E or Loopback; a first octet of value 0 instead yields the
fallback class `"Неизвестный"` (unknown). -/
theorem hw2_c2_valid_class (s o0 : Str) (rest : List Str) (v : Int)
    (hval : validate_ip s = true)
    (hsplit : splitOnDot s = o0 :: rest)
    (hv : pyInt o0 = some v) (hge1 : 1 ≤ v) :
    ∃ cls p, determine_ip_class s = .ok (cls, p) ∧
      (cls = "A".data ∨ cls = "B".data ∨ cls = "C".data ∨ cls = "D".data ∨
       cls = "E".data ∨ cls = "Loopback".data) := by
  obtain ⟨p0, p1, p2, p3, w0, w1, w2, w3, hsplit2, hw0, hl0, hr0,
    _, _, _, _, _, _, _, _, _⟩ := validate_ip_elim s hval
  rw [hsplit] at hsplit2
  injection hsplit2 with ho hrest
  subst ho
  rw [hv] at hw0
  injection hw0 with hwv
  subst hwv
  have hdet := determine_ip_class_eq s o0 rest v hsplit hv
  split_ifs at hdet with c1 c2 c3 c4 c5 c6
  · exact ⟨_, _, hdet, Or.inl rfl⟩
  · exact ⟨_, _, hdet, Or.inr (Or.inl rfl)⟩
  · exact ⟨_, _, hdet, Or.inr (Or.inr (Or.inl rfl))⟩
  · exact ⟨_, _, hdet, Or.inr (Or.inr (Or.inr (Or.inl rfl)))⟩
  · exact ⟨_, _, hdet, Or.inr (Or.inr (Or.inr (Or.inr (Or.inl rfl))))⟩
  · exact ⟨_, _, hdet, Or.inr (Or.inr (Or.inr (Or.inr (Or.inr rfl))))⟩
  · omega

/-- Witness for the amended C2 at `"10.0.0.1"`. -/
theorem hw2_c2_valid_class_witness :
    ∃ cls p, determine_ip_class "10.0.0.1".data = .ok (cls, p) ∧
      (cls = "A".data ∨ cls = "B".data ∨ cls = "C".data ∨ cls = "D".data ∨
       cls = "E".data ∨ cls = "Loopback".data) :=
  hw2_c2_valid_class "10.0.0.1".data "10".data ["0".data, "0".data, "1".data] 10
    (by decide) (by decide) (by decide) (by decide)

/-- Counterexample to C2 as stated: `"0.0.0.0"` is accepted by `validate_ip`,
yet `determine_ip_class` returns the class `"Неизвестный"`, which is none of
A, B, C, D, E or Loopback. -/
theorem hw2_c2_unknown_counterexample :
    validate_ip "0.0.0.0".data = true ∧
    determine_ip_class "0.0.0.0".data = .ok ("Неизвестный".data, 0) ∧
    ¬("Неизвестный".data = "A".data ∨ "Неизвестный".data = "B".data ∨
      "Неизвестный".data = "C".data ∨ "Неизвестный".data = "D".data ∨
      "Неизвестный".data = "E".data ∨ "Неизвестный".data = "Loopback".data) := by decide

/-- C4: for every valid address of class A, B, C or Loopback, `analyze_ip`
reports the class default prefix (8, 16, 24, 8 respectively), the subnet mask
with that many leading one bits in dotted-decimal form, the network address
`ip AND mask`, and the broadcast address `network OR NOT mask`. -/
theorem hw2_c4_classful_fields (s cls : Str) (p : Nat)
    (hval : validate_ip s = true)
    (hdet : determine_ip_class s = .ok (cls, p))
    (hcls : cls = "A".data ∨ cls = "B".data ∨ cls = "C".data ∨ cls = "Loopback".data) :
    ((cls = "A".data ∨ cls = "Loopback".data) → p = 8) ∧
    (cls = "B".data → p = 16) ∧
    (cls = "C".data → p = 24) ∧
    exGet (analyze_ip s) "network_prefix".data = some (.n p) ∧
    exGet (analyze_ip s) "subnet_mask".data = some (.s (toDotted (specMaskNat p))) ∧
    exGet (analyze_ip s) "network_address".data =
      some (.s (toDotted (Nat.land (ipNumOf s) (specMaskNat p)))) ∧
    exGet (analyze_ip s) "broadcast_address".data =
      some (.s (toDotted (Nat.lor (Nat.land (ipNumOf s) (specMaskNat p))
        (2 ^ 32 - 1 - specMaskNat p)))) := by
  obtain ⟨o0, o1, o2, o3, v0, v1, v2, v3, hsplit, h0, hl0, hr0,
    _, _, _, _, _, _, _, _, _⟩ := validate_ip_elim s hval
  have hdet2 := determine_ip_class_eq s o0 [o1, o2, o3] v0 hsplit h0
  rw [hdet] at hdet2
  split_ifs at hdet2 with c1 c2 c3 c4 c5 c6
  all_goals simp only [Except.ok.injEq, Prod.mk.injEq] at hdet2
  all_goals obtain ⟨rfl, rfl⟩ := hdet2
  · rw [analyze_ip_classful s "A".data 8 hval hdet (by decide) (Or.inl rfl)]
    exact ⟨fun _ => rfl, fun h => absurd h (by decide), fun h => absurd h (by decide),
      by simp [exGet, dictGet], by simp [exGet, dictGet],
      by simp [exGet, dictGet], by simp [exGet, dictGet]⟩
  · rw [analyze_ip_classful s "B".data 16 hval hdet (by decide) (Or.inr (Or.inl rfl))]
    exact ⟨fun h => absurd h (by decide), fun _ => rfl, fun h => absurd h (by decide),
      by simp [exGet, dictGet], by simp [exGet, dictGet],
      by simp [exGet, dictGet], by simp [exGet, dictGet]⟩
  · rw [analyze_ip_classful s "C".data 24 hval hdet (by decide) (Or.inr (Or.inr rfl))]
    exact ⟨fun h => absurd h (by decide), fun h => absurd h (by decide), fun _ => rfl,
      by simp [exGet, dictGet], by simp [exGet, dictGet],
      by simp [exGet, dictGet], by simp [exGet, dictGet]⟩
  · rcases hcls with h | h | h | h <;> exact absurd h (by decide)
  · rcases hcls with h | h | h | h <;> exact absurd h (by decide)
  · rw [analyze_ip_classful s "Loopback".data 8 hval hdet (by decide) (Or.inl rfl)]
    exact ⟨fun _ => rfl, fun h => absurd h (by decide), fun h => absurd h (by decide),
      by simp [exGet, dictGet], by simp [exGet, dictGet],
      by simp [exGet, dictGet], by simp [exGet, dictGet]⟩
  · rcases hcls with h | h | h | h <;> exact absurd h (by decide)

/-- Witness for C4 at `"10.0.0.1"` (class A, prefix 8). -/
theorem hw2_c4_classful_fields_witness :
    exGet (analyze_ip "10.0.0.1".data) "network_prefix".data = some (.n 8) ∧
    exGet (analyze_ip "10.0.0.1".data) "subnet_mask".data =
      some (.s (toDotted (specMaskNat 8))) ∧
    exGet (analyze_ip "10.0.0.1".data) "network_address".data =
      some (.s (toDotted (Nat.land (ipNumOf "10.0.0.1".data) (specMaskNat 8)))) ∧
    exGet (analyze_ip "10.0.0.1".data) "broadcast_address".data =
      some (.s (toDotted (Nat.lor (Nat.land (ipNumOf "10.0.0.1".data) (specMaskNat 8))
        (2 ^ 32 - 1 - specMaskNat 8)))) := by
  have h := hw2_c4_classful_fields "10.0.0.1".data "A".data 8 (by decide) (by decide)
    (Or.inl rfl)
  exact ⟨h.2.2.2.1, h.2.2.2.2.1, h.2.2.2.2.2.1, h.2.2.2.2.2.2⟩
